import Mathlib

/-!
# Verification of the Bouncy demo (`bouncy.cc`)

A shallow embedding of the physics, reflection-capture and resource-pool
logic of the Bouncy demo, with theorems checking the specification's
claims against it.  Scalar arithmetic is idealized as exact rational
arithmetic (`ℚ`); the properties treated here (velocity swaps, sign
flips, exact clamps, comparisons, ordering of operations) are the
discrete/structural ones, which this idealization captures.
-/

namespace Bouncy

/-- 3-component vector with rational components, standing in for `glm::vec3`. -/
@[ext] structure Vec3 where
  x : ℚ
  y : ℚ
  z : ℚ
deriving DecidableEq

namespace Vec3

/-- Componentwise vector addition. -/
def add (a b : Vec3) : Vec3 := ⟨a.x + b.x, a.y + b.y, a.z + b.z⟩

/-- Componentwise vector subtraction. -/
def sub (a b : Vec3) : Vec3 := ⟨a.x - b.x, a.y - b.y, a.z - b.z⟩

/-- Scalar multiplication `v * c`. -/
def smul (a : Vec3) (c : ℚ) : Vec3 := ⟨a.x * c, a.y * c, a.z * c⟩

/-- Dot product, as `glm::dot`. -/
def dot (a b : Vec3) : ℚ := a.x * b.x + a.y * b.y + a.z * b.z

end Vec3

/-! Constants of `bouncy.cc` (the same values the source gives them). -/

def min_x : ℚ := -8/10
def max_x : ℚ := 8/10
def min_y : ℚ := 0
def max_y : ℚ := 2
def min_z : ℚ := -8/10
def max_z : ℚ := 8/10
def gravity : ℚ := 4
def ball_radius : ℚ := 1/10

/-- Cubemap face indices, as in the source. -/
def plus_x_index : Nat := 0
def minus_x_index : Nat := 1
def plus_y_index : Nat := 2
def minus_y_index : Nat := 3
def plus_z_index : Nat := 4
def minus_z_index : Nat := 5

/-- The physics-relevant state of a `Ball` object: position, velocity,
color channels `r g b`, radius, and the per-tick `bounced` flag. -/
@[ext] structure Ball where
  position : Vec3
  velocity : Vec3
  r : ℚ
  g : ℚ
  b : ℚ
  radius : ℚ
  bounced : Bool
deriving DecidableEq

/-- The guard of `Ball::bounce_ball`: the two balls overlap
(`squared_distance < squared_radii`) and are on a collision course
(`dot(displacement, velocity - other.velocity) > 0` with
`displacement = other.position - position`). -/
def collision_hit (self other : Ball) : Prop :=
  let displacement := Vec3.sub other.position self.position
  let squared_distance := Vec3.dot displacement displacement
  let squared_radii := (self.radius + other.radius) * (self.radius + other.radius)
  Vec3.dot displacement (Vec3.sub self.velocity other.velocity) > 0 ∧
    squared_distance < squared_radii

instance (self other : Ball) : Decidable (collision_hit self other) := by
  unfold collision_hit; infer_instance

/-- `Ball::bounce_ball`.  Returns the updated pair of balls and the
returned boolean.  On a hit the two velocity vectors are swapped
(`swap(velocity, other.velocity)`) and both `bounced` flags are set. -/
def bounce_ball (self other : Ball) : Ball × Ball × Bool :=
  if collision_hit self other then
    ({ self with velocity := other.velocity, bounced := true },
     { other with velocity := self.velocity, bounced := true },
     true)
  else
    (self, other, false)

/-- `Ball::bounce_bounds`.  Six checks in source order
(max x, max y, max z, min x, min y, min z); each reads the current value
of the one coordinate it touches (the earlier checks only wrote other
coordinates), flips the velocity component, clamps the position so the
ball's edge sits on the boundary, and raises the flag.  Finally
`bounced |= flag` and `flag` is returned. -/
def bounce_bounds (ball : Ball) : Ball × Bool :=
  let rad := ball.radius
  let hit_max_x := decide (ball.position.x + rad > max_x ∧ ball.velocity.x > 0)
  let px1 := if hit_max_x then max_x - rad else ball.position.x
  let vx1 := if hit_max_x then -ball.velocity.x else ball.velocity.x
  let hit_max_y := decide (ball.position.y + rad > max_y ∧ ball.velocity.y > 0)
  let py1 := if hit_max_y then max_y - rad else ball.position.y
  let vy1 := if hit_max_y then -ball.velocity.y else ball.velocity.y
  let hit_max_z := decide (ball.position.z + rad > max_z ∧ ball.velocity.z > 0)
  let pz1 := if hit_max_z then max_z - rad else ball.position.z
  let vz1 := if hit_max_z then -ball.velocity.z else ball.velocity.z
  let hit_min_x := decide (px1 - rad < min_x ∧ vx1 < 0)
  let px2 := if hit_min_x then min_x + rad else px1
  let vx2 := if hit_min_x then -vx1 else vx1
  let hit_min_y := decide (py1 - rad < min_y ∧ vy1 < 0)
  let py2 := if hit_min_y then min_y + rad else py1
  let vy2 := if hit_min_y then -vy1 else vy1
  let hit_min_z := decide (pz1 - rad < min_z ∧ vz1 < 0)
  let pz2 := if hit_min_z then min_z + rad else pz1
  let vz2 := if hit_min_z then -vz1 else vz1
  let flag := hit_max_x || hit_max_y || hit_max_z || hit_min_x || hit_min_y || hit_min_z
  ({ ball with position := ⟨px2, py2, pz2⟩, velocity := ⟨vx2, vy2, vz2⟩,
               bounced := ball.bounced || flag },
   flag)

/-- `Ball::tick`: `velocity -= vec3(0, dt*gravity, 0); position += velocity*dt`
(the position update reads the already-updated velocity). -/
def tick (dt : ℚ) (ball : Ball) : Ball :=
  let v := Vec3.sub ball.velocity ⟨0, dt * gravity, 0⟩
  { ball with velocity := v, position := Vec3.add ball.position (v.smul dt) }

/-- `Ball::reset_bounce_flag`. -/
def reset_bounce_flag (ball : Ball) : Ball := { ball with bounced := false }

/-! ## The per-frame physics phases of `Main`

`Main` keeps the balls in a `std::list`; we model it as a `List Ball`
and the loop's pointer identity (`&ball != &other`) as index inequality,
since distinct `std::list` nodes have distinct stable addresses. -/

/-- First physics loop of `Main`: `ball.reset_bounce_flag()` for every ball. -/
def resetFlags (l : List Ball) : List Ball := l.map reset_bounce_flag

/-- Second physics loop of `Main`: `ball.bounce_bounds(); ball.tick(dt)`
for every ball (the source passes `dt = 0.01f`). -/
def boundsPhase (dt : ℚ) (l : List Ball) : List Ball :=
  l.map (fun ball => tick dt (bounce_bounds ball).1)

/-- The iteration order of the doubly nested pair loop of `Main`:
`ball` ranges over the list and, inside, `other` ranges over the list. -/
def allPairs (n : Nat) : List (Nat × Nat) :=
  (List.range n).flatMap (fun i => (List.range n).map (fun j => (i, j)))

/-- One iteration of the inner pair loop, instrumented: the state is the
ball list together with the log of pairs on which `bounce_ball` was
actually invoked.  The guard is the source's
`&ball != &other && !ball.bounce_flag() && !other.bounce_flag()`. -/
def pairStepT (st : List Ball × List (Nat × Nat)) (ij : Nat × Nat) :
    List Ball × List (Nat × Nat) :=
  match st.1[ij.1]?, st.1[ij.2]? with
  | some bi, some bj =>
    if ij.1 ≠ ij.2 ∧ bi.bounced = false ∧ bj.bounced = false then
      let res := bounce_ball bi bj
      ((st.1.set ij.1 res.1).set ij.2 res.2.1, st.2 ++ [ij])
    else st
  | _, _ => st

/-- Run the pair loop over a given order of index pairs. -/
def pairwiseRun (st : List Ball × List (Nat × Nat)) (pairs : List (Nat × Nat)) :
    List Ball × List (Nat × Nat) :=
  pairs.foldl pairStepT st

/-- Third physics loop of `Main` (pairwise collision resolution). -/
def pairwisePhase (l : List Ball) : List Ball :=
  (pairwiseRun (l, []) (allPairs l.length)).1

/-- The pairs on which the pairwise phase actually invoked the
overlap/collision-course test (`bounce_ball`). -/
def testedPairs (l : List Ball) : List (Nat × Nat) :=
  (pairwiseRun (l, []) (allPairs l.length)).2

/-- One whole physics tick of `Main`: reset flags, bounds + integrate,
then pairwise resolution.  `Main` passes `dt = 0.01f = 1/100`. -/
def advance_physics (l : List Ball) : List Ball :=
  pairwisePhase (boundsPhase (1/100) (resetFlags l))

/-! ## Reflection capture (`Ball::update_reflection_texture`) -/

/-- One `draw_scene` invocation issued during a capture: the framebuffer
index inside the capturing ball's own bundle, the owner of that bundle,
the look direction and up vector of the `lookAt` view, and the indices
of the balls drawn (the scene minus the skipped ball). -/
structure CaptureRender where
  face : Nat
  owner : Nat
  dir : Vec3
  up : Vec3
  drawn : List Nat
deriving DecidableEq

/-- The balls drawn by `draw_scene`/`Ball::draw_list` on a scene of `n`
balls: every ball except the one `skip` points to. -/
def draw_list_balls (n : Nat) (skip : Option Nat) : List Nat :=
  (List.range n).filter (fun j => decide (some j ≠ skip))

/-- `Ball::update_reflection_texture` for ball `i` of an `n`-ball scene:
the six `draw_scene` calls in source order, each into one framebuffer of
this ball's own bundle, each passing `this` as the ball to skip. -/
def update_reflection_texture (i n : Nat) : List CaptureRender :=
  [⟨plus_x_index,  i, ⟨1, 0, 0⟩,  ⟨0, -1, 0⟩, draw_list_balls n (some i)⟩,
   ⟨minus_x_index, i, ⟨-1, 0, 0⟩, ⟨0, -1, 0⟩, draw_list_balls n (some i)⟩,
   ⟨plus_y_index,  i, ⟨0, 1, 0⟩,  ⟨0, 0, 1⟩,  draw_list_balls n (some i)⟩,
   ⟨minus_y_index, i, ⟨0, -1, 0⟩, ⟨0, 0, -1⟩, draw_list_balls n (some i)⟩,
   ⟨plus_z_index,  i, ⟨0, 0, 1⟩,  ⟨0, -1, 0⟩, draw_list_balls n (some i)⟩,
   ⟨minus_z_index, i, ⟨0, 0, -1⟩, ⟨0, -1, 0⟩, draw_list_balls n (some i)⟩]

/-- The capture loop of `Main`:
`for (Ball& ball : list) ball.update_reflection_texture(list)`. -/
def capture_reflections (n : Nat) : List CaptureRender :=
  (List.range n).flatMap (fun i => update_reflection_texture i n)

/-! ## The render-bundle pool

`Ball::Ball` pops a recycled `BallRender` off the back of the static
`recycled_ball_render` vector when it is non-empty and only otherwise
allocates fresh GPU objects; `Ball::~Ball` pushes the bundle back.
Bundles are modelled by identifiers; `nextFresh` counts the bundles
ever allocated (= the total number of GPU bundles in existence, as
bundles are never deallocated). -/
structure PoolState where
  freeList : List Nat
  nextFresh : Nat
deriving DecidableEq

/-- Bundle acquisition in `Ball::Ball`. -/
def acquire (s : PoolState) : Nat × PoolState :=
  if h : s.freeList = [] then
    (s.nextFresh, { freeList := [], nextFresh := s.nextFresh + 1 })
  else
    (s.freeList.getLast h, { s with freeList := s.freeList.dropLast })

/-- Bundle release in `Ball::~Ball`: `recycled_ball_render.push_back(render)`. -/
def release (b : Nat) (s : PoolState) : PoolState :=
  { s with freeList := s.freeList ++ [b] }

/-- Total number of GPU bundles in existence. -/
def totalBundles (s : PoolState) : Nat := s.nextFresh

/-! ## The frame-event trace of `Main`'s loop body

The order of the statements executed for one frame on which the physics
block runs: reset every flag, bounds+integrate every ball, run the pair
loop, capture every ball's six faces, present. -/

/-- One observable step of `Main`'s frame. -/
inductive FrameEvent where
  | resetFlag (i : Nat)
  | boundsTick (i : Nat)
  | pairTest (i j : Nat)
  | captureFace (ball : Nat) (face : Nat)
  | present
deriving DecidableEq

/-- The trace of one frame of `Main` with `n` balls (a frame on which
the physics block runs), in the statement order of the source. -/
def frameTrace (n : Nat) : List FrameEvent :=
  ((List.range n).map FrameEvent.resetFlag)
  ++ ((List.range n).map FrameEvent.boundsTick)
  ++ ((allPairs n).map (fun ij => FrameEvent.pairTest ij.1 ij.2))
  ++ ((List.range n).flatMap (fun i => (List.range 6).map (FrameEvent.captureFace i)))
  ++ [FrameEvent.present]

/-- Phase key used to express the frame ordering: flag resets before
bounds before pair tests before captures (capture keys grow with the
owning ball, so one ball's six faces all precede the next ball's), with
`present` last. -/
def eventKey (n : Nat) : FrameEvent → Nat
  | .resetFlag _ => 0
  | .boundsTick _ => 1
  | .pairTest _ _ => 2
  | .captureFace ball _ => 3 + ball
  | .present => 3 + n

/-! ## Reference definitions taken from the spec's words (for the
refinement claim about the bounds-resolution-plus-integration step) -/

/-- Modelled from the spec: one axis of the spec's bounds resolution —
"if the sphere's leading edge exceeds the domain boundary on that axis
AND its velocity component points further outward, negate that velocity
component, clamp the position so the edge sits exactly on the boundary,
and set `bounced=true`". -/
def spec_axis_resolve (minB maxB rad p v : ℚ) : ℚ × ℚ × Bool :=
  if p + rad > maxB ∧ v > 0 then (maxB - rad, -v, true)
  else if p - rad < minB ∧ v < 0 then (minB + rad, -v, true)
  else (p, v, false)

/-- Modelled from the spec: bounds resolution applied to each of the
three axes. -/
def spec_resolve_bounds (ball : Ball) : Ball × Bool :=
  let rx := spec_axis_resolve min_x max_x ball.radius ball.position.x ball.velocity.x
  let ry := spec_axis_resolve min_y max_y ball.radius ball.position.y ball.velocity.y
  let rz := spec_axis_resolve min_z max_z ball.radius ball.position.z ball.velocity.z
  let flag := rx.2.2 || ry.2.2 || rz.2.2
  ({ ball with position := ⟨rx.1, ry.1, rz.1⟩,
               velocity := ⟨rx.2.1, ry.2.1, rz.2.1⟩,
               bounced := ball.bounced || flag },
   flag)

/-- Modelled from the spec: "Then integrate: velocity −= gravity·dt
along the vertical axis; position += velocity·dt". -/
def spec_integrate (dt : ℚ) (ball : Ball) : Ball :=
  let v : Vec3 := ⟨ball.velocity.x, ball.velocity.y - gravity * dt, ball.velocity.z⟩
  { ball with velocity := v,
              position := ⟨ball.position.x + v.x * dt,
                           ball.position.y + v.y * dt,
                           ball.position.z + v.z * dt⟩ }

/-- Modelled from the spec: the whole bounds-resolution-plus-integration
step. -/
def spec_bounds_step (dt : ℚ) (ball : Ball) : Ball :=
  spec_integrate dt (spec_resolve_bounds ball).1

/-- The code's bounds-resolution-plus-integration step
(`ball.bounce_bounds(); ball.tick(dt);`). -/
def code_bounds_step (dt : ℚ) (ball : Ball) : Ball :=
  tick dt (bounce_bounds ball).1

/-- The two boundary checks `bounce_bounds` performs on one axis, in
source sequence: the max-boundary check first, then the min-boundary
check reading the possibly already flipped/clamped values. -/
def seqAxis (minB maxB rad p v : ℚ) : ℚ × ℚ × Bool :=
  let hitMax := decide (p + rad > maxB ∧ v > 0)
  let p1 := if hitMax then maxB - rad else p
  let v1 := if hitMax then -v else v
  let hitMin := decide (p1 - rad < minB ∧ v1 < 0)
  let p2 := if hitMin then minB + rad else p1
  let v2 := if hitMin then -v1 else v1
  (p2, v2, hitMax || hitMin)

/-! ## Theorems -/

/-! ### Helper lemmas about the pairwise collision fold -/

/-- A ball whose `bounced` flag is set is left entirely untouched by a
pair-loop iteration, and if the iteration logged a test, that test does
not involve the flagged ball. -/
lemma pairStepT_frozen (st : List Ball × List (Nat × Nat)) (ij : Nat × Nat)
    (k : Nat) (bk : Ball) (hk : st.1[k]? = some bk) (hb : bk.bounced = true) :
    (pairStepT st ij).1[k]? = some bk ∧
    ((pairStepT st ij).2 = st.2 ∨
      ((pairStepT st ij).2 = st.2 ++ [ij] ∧ ij.1 ≠ k ∧ ij.2 ≠ k)) := by
  cases hi : st.1[ij.1]? with
  | none =>
    simp only [pairStepT, hi]
    exact ⟨hk, Or.inl trivial⟩
  | some bi =>
    cases hj : st.1[ij.2]? with
    | none =>
      simp only [pairStepT, hi, hj]
      exact ⟨hk, Or.inl trivial⟩
    | some bj =>
      by_cases hg : ij.1 ≠ ij.2 ∧ bi.bounced = false ∧ bj.bounced = false
      · have h1k : ij.1 ≠ k := by
          intro h; rw [h, hk] at hi; cases hi; rw [hb] at hg; simp at hg
        have h2k : ij.2 ≠ k := by
          intro h; rw [h, hk] at hj; cases hj; rw [hb] at hg; simp at hg
        simp only [pairStepT, hi, hj, if_pos hg]
        refine ⟨?_, Or.inr ⟨trivial, h1k, h2k⟩⟩
        rw [List.getElem?_set_ne h2k, List.getElem?_set_ne h1k]
        exact hk
      · simp only [pairStepT, hi, hj, if_neg hg]
        exact ⟨hk, Or.inl trivial⟩

/-- Once a ball is flagged, the rest of the pair loop leaves it
untouched and never logs a test involving it. -/
lemma pairwiseRun_frozen (pairs : List (Nat × Nat)) :
    ∀ (st : List Ball × List (Nat × Nat)) (k : Nat) (bk : Ball),
      st.1[k]? = some bk → bk.bounced = true →
      (pairwiseRun st pairs).1[k]? = some bk ∧
      ∀ ij ∈ (pairwiseRun st pairs).2, ij ∈ st.2 ∨ (ij.1 ≠ k ∧ ij.2 ≠ k) := by
  induction pairs with
  | nil =>
    intro st k bk hk _
    exact ⟨hk, fun ij hij => Or.inl hij⟩
  | cons p ps ih =>
    intro st k bk hk hb
    have hstep := pairStepT_frozen st p k bk hk hb
    have hrun := ih (pairStepT st p) k bk hstep.1 hb
    refine ⟨hrun.1, fun ij hij => ?_⟩
    rcases hrun.2 ij hij with hmem | hex
    · rcases hstep.2 with h2 | ⟨h2, hp⟩
      · exact Or.inl (h2 ▸ hmem)
      · rw [h2, List.mem_append] at hmem
        rcases hmem with hmem | hmem
        · exact Or.inl hmem
        · simp only [List.mem_singleton] at hmem
          exact Or.inr (hmem ▸ hp)
    · exact Or.inr hex

/-- The log of tested pairs grows by a sublist of the pairs iterated
over. -/
lemma pairwiseRun_tested_sublist (pairs : List (Nat × Nat)) :
    ∀ st : List Ball × List (Nat × Nat),
      ∃ l, (pairwiseRun st pairs).2 = st.2 ++ l ∧ l.Sublist pairs := by
  induction pairs with
  | nil => exact fun st => ⟨[], by simp [pairwiseRun]⟩
  | cons p ps ih =>
    intro st
    have hrun : pairwiseRun st (p :: ps) = pairwiseRun (pairStepT st p) ps := rfl
    rcases ih (pairStepT st p) with ⟨l, hl, hsub⟩
    cases hi : st.1[p.1]? with
    | none =>
      simp only [pairStepT, hi] at hl
      exact ⟨l, by rw [hrun]; simp only [pairStepT, hi]; exact hl, hsub.cons p⟩
    | some bi =>
      cases hj : st.1[p.2]? with
      | none =>
        simp only [pairStepT, hi, hj] at hl
        exact ⟨l, by rw [hrun]; simp only [pairStepT, hi, hj]; exact hl, hsub.cons p⟩
      | some bj =>
        by_cases hg : p.1 ≠ p.2 ∧ bi.bounced = false ∧ bj.bounced = false
        · simp only [pairStepT, hi, hj, if_pos hg] at hl
          refine ⟨p :: l, ?_, hsub.cons₂ p⟩
          rw [hrun]
          simp only [pairStepT, hi, hj, if_pos hg]
          simpa using hl
        · simp only [pairStepT, hi, hj, if_neg hg] at hl
          exact ⟨l, by rw [hrun]; simp only [pairStepT, hi, hj, if_neg hg]; exact hl,
                 hsub.cons p⟩

/-- The nested loop order visits each ordered pair exactly once. -/
lemma allPairs_nodup (n : Nat) : (allPairs n).Nodup :=
  List.Nodup.product (List.nodup_range n) (List.nodup_range n)

/-- Prepending an element stored at position `m` while overwriting that
position is a permutation. -/
lemma cons_set_perm {α : Type _} : ∀ (xs : List α) (m : Nat) (x b : α),
    xs[m]? = some b → (b :: xs.set m x).Perm (x :: xs) := by
  intro xs
  induction xs with
  | nil => intro m x b h; simp at h
  | cons y ys ih =>
    intro m x b h
    cases m with
    | zero =>
      simp only [List.getElem?_cons_zero, Option.some.injEq] at h
      subst h
      simpa using List.Perm.swap x y ys
    | succ k =>
      simp only [List.getElem?_cons_succ] at h
      have ihk := ih k x b h
      have hrw : (y :: ys).set (k+1) x = y :: ys.set k x := by simp
      rw [hrw]
      exact ((List.Perm.swap y b (ys.set k x)).trans
        ((List.Perm.cons y ihk).trans (List.Perm.swap x y ys)))

/-- Writing each of two distinct positions with the value stored at the
other is a permutation (it swaps the two entries). -/
lemma set_set_swap_perm {α : Type _} : ∀ (l : List α) (i j : Nat), i ≠ j →
    ∀ a b : α, l[i]? = some a → l[j]? = some b →
      ((l.set i b).set j a).Perm l := by
  intro l
  induction l with
  | nil => intro i j _ a b ha _; simp at ha
  | cons x xs ih =>
    intro i j hij a b ha hb
    cases i with
    | zero =>
      cases j with
      | zero => exact absurd rfl hij
      | succ m =>
        simp only [List.getElem?_cons_zero, Option.some.injEq] at ha
        subst ha
        simp only [List.getElem?_cons_succ] at hb
        simpa using cons_set_perm xs m x b hb
    | succ k =>
      cases j with
      | zero =>
        simp only [List.getElem?_cons_zero, Option.some.injEq] at hb
        subst hb
        simp only [List.getElem?_cons_succ] at ha
        simpa using cons_set_perm xs k x a ha
      | succ m =>
        have hkm : k ≠ m := fun h => hij (by rw [h])
        simp only [List.getElem?_cons_succ] at ha hb
        simpa using (ih k m hkm a b ha hb).cons x

/-- Overwriting a position with the value it already holds is a no-op. -/
lemma set_getElem?_self {α : Type _} : ∀ (l : List α) (i : Nat) (a : α),
    l[i]? = some a → l.set i a = l := by
  intro l
  induction l with
  | nil => intro i a h; simp at h
  | cons x xs ih =>
    intro i a h
    cases i with
    | zero =>
      simp only [List.getElem?_cons_zero, Option.some.injEq] at h
      subst h; rfl
    | succ k =>
      simp only [List.getElem?_cons_succ] at h
      simp [ih k a h]

/-- `bounce_ball` leaves the first ball's position unchanged. -/
lemma bounce_ball_fst_position (a b : Ball) :
    (bounce_ball a b).1.position = a.position := by
  by_cases h : collision_hit a b <;> simp [bounce_ball, h]

/-- `bounce_ball` leaves the second ball's position unchanged. -/
lemma bounce_ball_snd_position (a b : Ball) :
    (bounce_ball a b).2.1.position = b.position := by
  by_cases h : collision_hit a b <;> simp [bounce_ball, h]

/-- One pair-loop iteration permutes the velocity vectors (it either
swaps two of them or changes nothing). -/
lemma pairStepT_vel_perm (st : List Ball × List (Nat × Nat)) (ij : Nat × Nat) :
    ((pairStepT st ij).1.map Ball.velocity).Perm (st.1.map Ball.velocity) := by
  cases hi : st.1[ij.1]? with
  | none => simp only [pairStepT, hi]; exact List.Perm.refl _
  | some bi =>
    cases hj : st.1[ij.2]? with
    | none => simp only [pairStepT, hi, hj]; exact List.Perm.refl _
    | some bj =>
      by_cases hg : ij.1 ≠ ij.2 ∧ bi.bounced = false ∧ bj.bounced = false
      · simp only [pairStepT, hi, hj, if_pos hg]
        rw [List.map_set, List.map_set]
        have hvi : (st.1.map Ball.velocity)[ij.1]? = some bi.velocity := by
          rw [List.getElem?_map, hi]; rfl
        have hvj : (st.1.map Ball.velocity)[ij.2]? = some bj.velocity := by
          rw [List.getElem?_map, hj]; rfl
        by_cases hhit : collision_hit bi bj
        · have h1 : (bounce_ball bi bj).1.velocity = bj.velocity := by
            rw [bounce_ball, if_pos hhit]
          have h2 : (bounce_ball bi bj).2.1.velocity = bi.velocity := by
            rw [bounce_ball, if_pos hhit]
          rw [h1, h2]
          exact set_set_swap_perm _ ij.1 ij.2 hg.1 bi.velocity bj.velocity hvi hvj
        · have h1 : (bounce_ball bi bj).1.velocity = bi.velocity := by
            rw [bounce_ball, if_neg hhit]
          have h2 : (bounce_ball bi bj).2.1.velocity = bj.velocity := by
            rw [bounce_ball, if_neg hhit]
          rw [h1, h2, set_getElem?_self _ _ _ hvi, set_getElem?_self _ _ _ hvj]
      · simp only [pairStepT, hi, hj, if_neg hg]
        exact List.Perm.refl _

/-- The whole pair loop permutes the velocity vectors. -/
lemma pairwiseRun_vel_perm (pairs : List (Nat × Nat)) :
    ∀ st : List Ball × List (Nat × Nat),
      ((pairwiseRun st pairs).1.map Ball.velocity).Perm (st.1.map Ball.velocity) := by
  induction pairs with
  | nil => intro st; exact List.Perm.refl _
  | cons p ps ih =>
    intro st
    exact (ih (pairStepT st p)).trans (pairStepT_vel_perm st p)

/-- One pair-loop iteration changes no ball's position. -/
lemma pairStepT_pos (st : List Ball × List (Nat × Nat)) (ij : Nat × Nat) (k : Nat) :
    ((pairStepT st ij).1[k]?).map Ball.position = (st.1[k]?).map Ball.position := by
  cases hi : st.1[ij.1]? with
  | none => simp only [pairStepT, hi]
  | some bi =>
    cases hj : st.1[ij.2]? with
    | none => simp only [pairStepT, hi, hj]
    | some bj =>
      by_cases hg : ij.1 ≠ ij.2 ∧ bi.bounced = false ∧ bj.bounced = false
      · simp only [pairStepT, hi, hj, if_pos hg]
        have hlen1 : ij.1 < st.1.length := by
          by_contra hcon
          rw [List.getElem?_eq_none (Nat.le_of_not_lt hcon)] at hi
          cases hi
        have hlen2 : ij.2 < st.1.length := by
          by_contra hcon
          rw [List.getElem?_eq_none (Nat.le_of_not_lt hcon)] at hj
          cases hj
        by_cases hk2 : ij.2 = k
        · subst hk2
          rw [List.getElem?_set_self (by simpa using hlen2), hj]
          simp [bounce_ball_snd_position]
        · rw [List.getElem?_set_ne hk2]
          by_cases hk1 : ij.1 = k
          · subst hk1
            rw [List.getElem?_set_self hlen1, hi]
            simp [bounce_ball_fst_position]
          · rw [List.getElem?_set_ne hk1]
      · simp only [pairStepT, hi, hj, if_neg hg]

/-- The whole pair loop changes no ball's position. -/
lemma pairwiseRun_pos (pairs : List (Nat × Nat)) :
    ∀ (st : List Ball × List (Nat × Nat)) (k : Nat),
      ((pairwiseRun st pairs).1[k]?).map Ball.position =
        (st.1[k]?).map Ball.position := by
  induction pairs with
  | nil => intro st k; rfl
  | cons p ps ih =>
    intro st k
    exact (ih (pairStepT st p) k).trans (pairStepT_pos st p k)

/-- Claim C9: the pairwise collision phase only exchanges velocity
vectors, so the multiset of velocity vectors over all spheres after the
phase equals (is a permutation of) the multiset before it. -/
theorem c9_pairwise_velocity_multiset (l : List Ball) :
    (((pairwisePhase l).map Ball.velocity : List Vec3) : Multiset Vec3) =
      ((l.map Ball.velocity : List Vec3) : Multiset Vec3) :=
  Multiset.coe_eq_coe.mpr (pairwiseRun_vel_perm (allPairs l.length) (l, []))

/-- Claim C2: a sphere whose `bounced` flag is set is, from that moment
on, never a participant of another pair test in the same tick and is
left entirely unchanged by the rest of the pairwise phase; and for
three mutually overlapping spheres all on collision courses, exactly
the first pair swaps velocities: the phase performs the single test
`(0, 1)`, swaps those two velocities, flags both, and leaves the third
sphere untouched. -/
theorem c2_no_double_bounce :
    (∀ (pairs : List (Nat × Nat)) (st : List Ball × List (Nat × Nat))
        (k : Nat) (bk : Ball),
      st.1[k]? = some bk → bk.bounced = true →
      (pairwiseRun st pairs).1[k]? = some bk ∧
      ∀ ij ∈ (pairwiseRun st pairs).2, ij ∈ st.2 ∨ (ij.1 ≠ k ∧ ij.2 ≠ k)) ∧
    (∀ b0 b1 b2 : Ball,
      b0.bounced = false → b1.bounced = false → b2.bounced = false →
      collision_hit b0 b1 → collision_hit b0 b2 → collision_hit b1 b2 →
      pairwisePhase [b0, b1, b2] =
        [{ b0 with velocity := b1.velocity, bounced := true },
         { b1 with velocity := b0.velocity, bounced := true }, b2] ∧
      testedPairs [b0, b1, b2] = [(0, 1)]) := by
  constructor
  · exact fun pairs st k bk hk hb => pairwiseRun_frozen pairs st k bk hk hb
  · intro b0 b1 b2 h0 h1 h2 hit01 _ _
    have hbb : bounce_ball b0 b1 =
        ({ b0 with velocity := b1.velocity, bounced := true },
         { b1 with velocity := b0.velocity, bounced := true }, true) := by
      rw [bounce_ball, if_pos hit01]
    have hap : allPairs 3 =
        [(0,0),(0,1),(0,2),(1,0),(1,1),(1,2),(2,0),(2,1),(2,2)] := by decide
    have e1 : pairStepT ([b0, b1, b2], []) (0, 0) = ([b0, b1, b2], []) := by
      simp [pairStepT]
    have e2 : pairStepT ([b0, b1, b2], []) (0, 1) =
        ([{ b0 with velocity := b1.velocity, bounced := true },
          { b1 with velocity := b0.velocity, bounced := true }, b2], [(0, 1)]) := by
      simp [pairStepT, h0, h1, hbb]
    have e3 : pairStepT
        ([{ b0 with velocity := b1.velocity, bounced := true },
          { b1 with velocity := b0.velocity, bounced := true }, b2], [(0, 1)]) (0, 2) =
        ([{ b0 with velocity := b1.velocity, bounced := true },
          { b1 with velocity := b0.velocity, bounced := true }, b2], [(0, 1)]) := by
      simp [pairStepT]
    have e4 : ∀ ij : Nat × Nat, ij ∈ [((1 : Nat), (0 : Nat)), (1, 1), (1, 2), (2, 0), (2, 1), (2, 2)] →
        pairStepT
          ([{ b0 with velocity := b1.velocity, bounced := true },
            { b1 with velocity := b0.velocity, bounced := true }, b2], [(0, 1)]) ij =
          ([{ b0 with velocity := b1.velocity, bounced := true },
            { b1 with velocity := b0.velocity, bounced := true }, b2], [(0, 1)]) := by
      intro ij hij
      fin_cases hij <;> simp [pairStepT]
    have hrun : pairwiseRun ([b0, b1, b2], []) (allPairs 3) =
        ([{ b0 with velocity := b1.velocity, bounced := true },
          { b1 with velocity := b0.velocity, bounced := true }, b2], [(0, 1)]) := by
      rw [hap]
      simp only [pairwiseRun, List.foldl_cons, List.foldl_nil]
      rw [e1, e2, e3,
          e4 (1, 0) (by simp), e4 (1, 1) (by simp), e4 (1, 2) (by simp),
          e4 (2, 0) (by simp), e4 (2, 1) (by simp), e4 (2, 2) (by simp)]
    constructor
    · show (pairwiseRun ([b0, b1, b2], []) (allPairs 3)).1 = _
      rw [hrun]
    · show (pairwiseRun ([b0, b1, b2], []) (allPairs 3)).2 = _
      rw [hrun]

/-- Witness for C2: a frozen flagged ball, and a concrete mutually
overlapping, closing triple in which exactly the pair `(0, 1)` is
tested. -/
theorem c2_no_double_bounce_witness :
    ((([⟨⟨0, 0, 0⟩, ⟨0, 0, 0⟩, 0, 0, 0, 1/10, true⟩] : List Ball)[0]? =
        some ⟨⟨0, 0, 0⟩, ⟨0, 0, 0⟩, 0, 0, 0, 1/10, true⟩) ∧
      (pairwiseRun ([⟨⟨0, 0, 0⟩, ⟨0, 0, 0⟩, 0, 0, 0, 1/10, true⟩], []) [(0, 1)]).1[0]? =
        some ⟨⟨0, 0, 0⟩, ⟨0, 0, 0⟩, 0, 0, 0, 1/10, true⟩) ∧
    testedPairs
      [⟨⟨0, 0, 0⟩, ⟨1, 1, 0⟩, 0, 0, 0, 1/10, false⟩,
       ⟨⟨1/10, 0, 0⟩, ⟨-1, 0, 0⟩, 0, 0, 0, 1/10, false⟩,
       ⟨⟨0, 1/10, 0⟩, ⟨0, -1, 0⟩, 0, 0, 0, 1/10, false⟩] = [(0, 1)] :=
  ⟨⟨rfl,
    (c2_no_double_bounce.1 [(0, 1)]
      ([⟨⟨0, 0, 0⟩, ⟨0, 0, 0⟩, 0, 0, 0, 1/10, true⟩], []) 0
      ⟨⟨0, 0, 0⟩, ⟨0, 0, 0⟩, 0, 0, 0, 1/10, true⟩ rfl rfl).1⟩,
   (c2_no_double_bounce.2
      ⟨⟨0, 0, 0⟩, ⟨1, 1, 0⟩, 0, 0, 0, 1/10, false⟩
      ⟨⟨1/10, 0, 0⟩, ⟨-1, 0, 0⟩, 0, 0, 0, 1/10, false⟩
      ⟨⟨0, 1/10, 0⟩, ⟨0, -1, 0⟩, 0, 0, 0, 1/10, false⟩
      rfl rfl rfl
      (by norm_num [collision_hit, Vec3.dot, Vec3.sub])
      (by norm_num [collision_hit, Vec3.dot, Vec3.sub])
      (by norm_num [collision_hit, Vec3.dot, Vec3.sub])).2⟩

/-! ### Axis-wise characterization of `bounce_bounds` -/

/-- The x components of `bounce_bounds` are the x axis pipeline. -/
lemma bounce_bounds_px (ball : Ball) :
    (bounce_bounds ball).1.position.x =
      (seqAxis min_x max_x ball.radius ball.position.x ball.velocity.x).1 := rfl

/-- The x velocity of `bounce_bounds` is the x axis pipeline. -/
lemma bounce_bounds_vx (ball : Ball) :
    (bounce_bounds ball).1.velocity.x =
      (seqAxis min_x max_x ball.radius ball.position.x ball.velocity.x).2.1 := rfl

/-- The y position of `bounce_bounds` is the y axis pipeline. -/
lemma bounce_bounds_py (ball : Ball) :
    (bounce_bounds ball).1.position.y =
      (seqAxis min_y max_y ball.radius ball.position.y ball.velocity.y).1 := rfl

/-- The y velocity of `bounce_bounds` is the y axis pipeline. -/
lemma bounce_bounds_vy (ball : Ball) :
    (bounce_bounds ball).1.velocity.y =
      (seqAxis min_y max_y ball.radius ball.position.y ball.velocity.y).2.1 := rfl

/-- The z position of `bounce_bounds` is the z axis pipeline. -/
lemma bounce_bounds_pz (ball : Ball) :
    (bounce_bounds ball).1.position.z =
      (seqAxis min_z max_z ball.radius ball.position.z ball.velocity.z).1 := rfl

/-- The z velocity of `bounce_bounds` is the z axis pipeline. -/
lemma bounce_bounds_vz (ball : Ball) :
    (bounce_bounds ball).1.velocity.z =
      (seqAxis min_z max_z ball.radius ball.position.z ball.velocity.z).2.1 := rfl

/-- Six flag disjuncts regrouped per axis. -/
lemma or_six_regroup (a b c d e f : Bool) :
    (a || b || c || d || e || f) = (a || d || (b || e) || (c || f)) := by
  cases a <;> cases b <;> cases c <;> cases d <;> cases e <;> cases f <;> rfl

/-- The returned flag of `bounce_bounds` is the disjunction of the three
axis flags. -/
lemma bounce_bounds_snd (ball : Ball) :
    (bounce_bounds ball).2 =
      ((seqAxis min_x max_x ball.radius ball.position.x ball.velocity.x).2.2 ||
       (seqAxis min_y max_y ball.radius ball.position.y ball.velocity.y).2.2 ||
       (seqAxis min_z max_z ball.radius ball.position.z ball.velocity.z).2.2) :=
  or_six_regroup _ _ _ _ _ _

/-- The `bounced` field after `bounce_bounds`. -/
lemma bounce_bounds_bounced (ball : Ball) :
    (bounce_bounds ball).1.bounced = (ball.bounced || (bounce_bounds ball).2) := rfl

/-- `bounce_bounds` leaves radius and color unchanged. -/
lemma bounce_bounds_frame (ball : Ball) :
    (bounce_bounds ball).1.radius = ball.radius ∧
    (bounce_bounds ball).1.r = ball.r ∧
    (bounce_bounds ball).1.g = ball.g ∧
    (bounce_bounds ball).1.b = ball.b := ⟨rfl, rfl, rfl, rfl⟩

/-- When the max-boundary check fires on an axis whose span admits the
ball (`minB + 2 rad ≤ maxB`), the axis pipeline flips and clamps at the
max side and the min check cannot re-fire. -/
lemma seqAxis_max (minB maxB rad p v : ℚ) (h2r : minB + 2 * rad ≤ maxB)
    (h : p + rad > maxB ∧ v > 0) :
    seqAxis minB maxB rad p v = (maxB - rad, -v, true) := by
  have h1 : decide (p + rad > maxB ∧ v > 0) = true := by
    simp only [decide_eq_true_eq]; exact h
  have h2 : decide (maxB - rad - rad < minB ∧ -v < 0) = false := by
    simp only [decide_eq_false_iff_not]
    rintro ⟨ha, _⟩
    linarith
  simp only [seqAxis, h1, h2, eq_self_iff_true, if_true, Bool.false_eq_true,
    if_false, Bool.true_or, Bool.or_false]

/-- When the min-boundary check fires (so the max check cannot), the
axis pipeline flips and clamps at the min side. -/
lemma seqAxis_min (minB maxB rad p v : ℚ) (h : p - rad < minB ∧ v < 0) :
    seqAxis minB maxB rad p v = (minB + rad, -v, true) := by
  have h1 : decide (p + rad > maxB ∧ v > 0) = false := by
    simp only [decide_eq_false_iff_not]
    rintro ⟨_, hv⟩
    linarith [h.2]
  have h2 : decide (p - rad < minB ∧ v < 0) = true := by
    simp only [decide_eq_true_eq]; exact h
  simp only [seqAxis, h1, h2, eq_self_iff_true, if_true, Bool.false_eq_true,
    if_false, Bool.false_or, Bool.or_false]

/-- When neither boundary check fires, the axis pipeline is the
identity. -/
lemma seqAxis_none (minB maxB rad p v : ℚ)
    (hmax : ¬ (p + rad > maxB ∧ v > 0)) (hmin : ¬ (p - rad < minB ∧ v < 0)) :
    seqAxis minB maxB rad p v = (p, v, false) := by
  have h1 : decide (p + rad > maxB ∧ v > 0) = false := by
    simp only [decide_eq_false_iff_not]; exact hmax
  have h2 : decide (p - rad < minB ∧ v < 0) = false := by
    simp only [decide_eq_false_iff_not]; exact hmin
  simp only [seqAxis, h1, h2, eq_self_iff_true, if_true, Bool.false_eq_true,
    if_false, Bool.false_or, Bool.or_false]

/-- Under the span condition, the sequential axis pipeline agrees with
the spec's single max-else-min resolution. -/
lemma seqAxis_eq_spec (minB maxB rad p v : ℚ) (h2r : minB + 2 * rad ≤ maxB) :
    seqAxis minB maxB rad p v = spec_axis_resolve minB maxB rad p v := by
  by_cases hmax : p + rad > maxB ∧ v > 0
  · rw [seqAxis_max minB maxB rad p v h2r hmax, spec_axis_resolve, if_pos hmax]
  · by_cases hmin : p - rad < minB ∧ v < 0
    · rw [seqAxis_min minB maxB rad p v hmin, spec_axis_resolve, if_neg hmax,
        if_pos hmin]
    · rw [seqAxis_none minB maxB rad p v hmax hmin, spec_axis_resolve,
        if_neg hmax, if_neg hmin]

/-! ### Component lemmas for `tick` -/

/-- The x position after `tick`. -/
lemma tick_px (dt : ℚ) (ball : Ball) :
    (tick dt ball).position.x = ball.position.x + ball.velocity.x * dt := by
  simp [tick, Vec3.add, Vec3.sub, Vec3.smul]

/-- The y position after `tick` (the updated velocity is integrated). -/
lemma tick_py (dt : ℚ) (ball : Ball) :
    (tick dt ball).position.y =
      ball.position.y + (ball.velocity.y - dt * gravity) * dt := by
  simp [tick, Vec3.add, Vec3.sub, Vec3.smul]

/-- The z position after `tick`. -/
lemma tick_pz (dt : ℚ) (ball : Ball) :
    (tick dt ball).position.z = ball.position.z + ball.velocity.z * dt := by
  simp [tick, Vec3.add, Vec3.sub, Vec3.smul]

/-- The x velocity after `tick`. -/
lemma tick_vx (dt : ℚ) (ball : Ball) :
    (tick dt ball).velocity.x = ball.velocity.x := by
  simp [tick, Vec3.sub]

/-- The y velocity after `tick`: gravity is applied. -/
lemma tick_vy (dt : ℚ) (ball : Ball) :
    (tick dt ball).velocity.y = ball.velocity.y - dt * gravity := by
  simp [tick, Vec3.sub]

/-- The z velocity after `tick`. -/
lemma tick_vz (dt : ℚ) (ball : Ball) :
    (tick dt ball).velocity.z = ball.velocity.z := by
  simp [tick, Vec3.sub]

/-- `tick` coincides with the spec's integration step. -/
lemma tick_eq_spec_integrate (dt : ℚ) (ball : Ball) :
    tick dt ball = spec_integrate dt ball := by
  ext <;> dsimp only [tick, spec_integrate, Vec3.add, Vec3.sub, Vec3.smul] <;> ring

/-- Claim C5: under the span condition satisfied by the program's
radius, the code's bounds-resolution-plus-integration step
(`bounce_bounds` then `tick`) equals the spec's reference definition
(per-axis leading-edge check with flip, exact clamp and flag, then
`velocity -= gravity*dt` vertically and `position += velocity*dt`),
and the two produce the same bounce flag. -/
theorem c5_bounds_step_refines_spec (ball : Ball)
    (hr : 2 * ball.radius ≤ 8/5) :
    (∀ dt : ℚ, code_bounds_step dt ball = spec_bounds_step dt ball) ∧
    (bounce_bounds ball).2 = (spec_resolve_bounds ball).2 := by
  have hx : min_x + 2 * ball.radius ≤ max_x := by unfold min_x max_x; linarith
  have hy : min_y + 2 * ball.radius ≤ max_y := by unfold min_y max_y; linarith
  have hz : min_z + 2 * ball.radius ≤ max_z := by unfold min_z max_z; linarith
  have ex := seqAxis_eq_spec min_x max_x ball.radius ball.position.x ball.velocity.x hx
  have ey := seqAxis_eq_spec min_y max_y ball.radius ball.position.y ball.velocity.y hy
  have ez := seqAxis_eq_spec min_z max_z ball.radius ball.position.z ball.velocity.z hz
  have hsnd : (bounce_bounds ball).2 = (spec_resolve_bounds ball).2 := by
    rw [bounce_bounds_snd, ex, ey, ez]; rfl
  have hfst : (bounce_bounds ball).1 = (spec_resolve_bounds ball).1 := by
    ext
    · rw [bounce_bounds_px, ex]; rfl
    · rw [bounce_bounds_py, ey]; rfl
    · rw [bounce_bounds_pz, ez]; rfl
    · rw [bounce_bounds_vx, ex]; rfl
    · rw [bounce_bounds_vy, ey]; rfl
    · rw [bounce_bounds_vz, ez]; rfl
    · rfl
    · rfl
    · rfl
    · rfl
    · rw [bounce_bounds_bounced, hsnd]; rfl
  refine ⟨fun dt => ?_, hsnd⟩
  rw [code_bounds_step, spec_bounds_step, hfst]
  exact tick_eq_spec_integrate dt _

/-- Witness for C5: the program's ball radius `0.1`. -/
theorem c5_bounds_step_refines_spec_witness :
    (2 * Ball.radius ⟨⟨0, 0, 0⟩, ⟨0, 0, 0⟩, 0, 0, 0, 1/10, false⟩ ≤ 8/5) ∧
    code_bounds_step (1/100) ⟨⟨0, 0, 0⟩, ⟨0, 0, 0⟩, 0, 0, 0, 1/10, false⟩ =
      spec_bounds_step (1/100) ⟨⟨0, 0, 0⟩, ⟨0, 0, 0⟩, 0, 0, 0, 1/10, false⟩ :=
  ⟨by norm_num,
   (c5_bounds_step_refines_spec ⟨⟨0, 0, 0⟩, ⟨0, 0, 0⟩, 0, 0, 0, 1/10, false⟩
      (by norm_num)).1 (1/100)⟩

/-- Claim C3: after the bounds-resolution-plus-integration step of one
tick (`dt = 1/100` as `Main` passes), a sphere is not past the boundary
that triggered a bounce on any axis; the pairwise phase moves no
positions, so this holds after the full `advance_physics` tick; and in
the scenario of a rising sphere with zero horizontal velocity whose top
edge passes `max_y`, the y velocity sign flips, the y position is
clamped to `max_y - r` by the bounds resolution, and the y velocity is
still downward after gravity is applied. -/
theorem c3_boundary_clamp (ball : Ball)
    (hr1 : 1/2500 ≤ ball.radius) (hr2 : 2 * ball.radius ≤ 8/5) :
    ((ball.position.x + ball.radius > max_x ∧ ball.velocity.x > 0) →
      (code_bounds_step (1/100) ball).position.x ≤ max_x) ∧
    ((ball.position.x - ball.radius < min_x ∧ ball.velocity.x < 0) →
      min_x ≤ (code_bounds_step (1/100) ball).position.x) ∧
    ((ball.position.y + ball.radius > max_y ∧ ball.velocity.y > 0) →
      (code_bounds_step (1/100) ball).position.y ≤ max_y) ∧
    ((ball.position.y - ball.radius < min_y ∧ ball.velocity.y < 0) →
      min_y ≤ (code_bounds_step (1/100) ball).position.y) ∧
    ((ball.position.z + ball.radius > max_z ∧ ball.velocity.z > 0) →
      (code_bounds_step (1/100) ball).position.z ≤ max_z) ∧
    ((ball.position.z - ball.radius < min_z ∧ ball.velocity.z < 0) →
      min_z ≤ (code_bounds_step (1/100) ball).position.z) ∧
    (∀ (l : List Ball) (k : Nat),
      ((pairwisePhase l)[k]?).map Ball.position = (l[k]?).map Ball.position) ∧
    (ball.velocity.x = 0 → ball.velocity.z = 0 →
      (ball.position.y + ball.radius > max_y ∧ ball.velocity.y > 0) →
      (bounce_bounds ball).1.velocity.y = -ball.velocity.y ∧
      (bounce_bounds ball).1.position.y = max_y - ball.radius ∧
      (code_bounds_step (1/100) ball).velocity.y < 0) := by
  have hx : min_x + 2 * ball.radius ≤ max_x := by unfold min_x max_x; linarith
  have hy : min_y + 2 * ball.radius ≤ max_y := by unfold min_y max_y; linarith
  have hz : min_z + 2 * ball.radius ≤ max_z := by unfold min_z max_z; linarith
  have hrpos : (0 : ℚ) < ball.radius := lt_of_lt_of_le (by norm_num) hr1
  refine ⟨?_, ?_, ?_, ?_, ?_, ?_, ?_, ?_⟩
  · intro h
    have hseq := seqAxis_max min_x max_x ball.radius ball.position.x ball.velocity.x hx h
    rw [code_bounds_step, tick_px, bounce_bounds_px, bounce_bounds_vx, hseq]
    have hv := h.2
    linarith
  · intro h
    have hseq := seqAxis_min min_x max_x ball.radius ball.position.x ball.velocity.x h
    rw [code_bounds_step, tick_px, bounce_bounds_px, bounce_bounds_vx, hseq]
    have hv := h.2
    linarith
  · intro h
    have hseq := seqAxis_max min_y max_y ball.radius ball.position.y ball.velocity.y hy h
    rw [code_bounds_step, tick_py, bounce_bounds_py, bounce_bounds_vy, hseq]
    have hv := h.2
    unfold gravity
    linarith
  · intro h
    have hseq := seqAxis_min min_y max_y ball.radius ball.position.y ball.velocity.y h
    rw [code_bounds_step, tick_py, bounce_bounds_py, bounce_bounds_vy, hseq]
    have hv := h.2
    unfold gravity
    linarith
  · intro h
    have hseq := seqAxis_max min_z max_z ball.radius ball.position.z ball.velocity.z hz h
    rw [code_bounds_step, tick_pz, bounce_bounds_pz, bounce_bounds_vz, hseq]
    have hv := h.2
    linarith
  · intro h
    have hseq := seqAxis_min min_z max_z ball.radius ball.position.z ball.velocity.z h
    rw [code_bounds_step, tick_pz, bounce_bounds_pz, bounce_bounds_vz, hseq]
    have hv := h.2
    linarith
  · exact fun l k => pairwiseRun_pos (allPairs l.length) (l, []) k
  · intro _ _ h
    have hseq := seqAxis_max min_y max_y ball.radius ball.position.y ball.velocity.y hy h
    refine ⟨?_, ?_, ?_⟩
    · rw [bounce_bounds_vy, hseq]
    · rw [bounce_bounds_py, hseq]
    · rw [code_bounds_step, tick_vy, bounce_bounds_vy, hseq]
      have hv := h.2
      unfold gravity
      linarith

/-- Witness for C3: a rising sphere about to clear the ceiling. -/
theorem c3_boundary_clamp_witness :
    ((1 : ℚ)/2500 ≤ Ball.radius ⟨⟨0, 199/100, 0⟩, ⟨0, 1, 0⟩, 0, 0, 0, 1/10, false⟩) ∧
    (bounce_bounds ⟨⟨0, 199/100, 0⟩, ⟨0, 1, 0⟩, 0, 0, 0, 1/10, false⟩).1.position.y =
      max_y - Ball.radius ⟨⟨0, 199/100, 0⟩, ⟨0, 1, 0⟩, 0, 0, 0, 1/10, false⟩ :=
  ⟨by norm_num,
   ((c3_boundary_clamp ⟨⟨0, 199/100, 0⟩, ⟨0, 1, 0⟩, 0, 0, 0, 1/10, false⟩
      (by norm_num) (by norm_num)).2.2.2.2.2.2.2 rfl rfl
      (by norm_num [max_y])).2.1⟩

/-! ### Frame-order lemmas -/

/-- Shape of a member of the capture segment of the frame trace. -/
lemma mem_captures {n : Nat} {e : FrameEvent}
    (h : e ∈ (List.range n).flatMap
        (fun i => (List.range 6).map (FrameEvent.captureFace i))) :
    ∃ i, i < n ∧ ∃ f, f < 6 ∧ e = FrameEvent.captureFace i f := by
  rcases List.mem_flatMap.mp h with ⟨i, hi, hmem⟩
  rcases List.mem_map.mp hmem with ⟨f, hf, rfl⟩
  exact ⟨i, List.mem_range.mp hi, f, List.mem_range.mp hf, rfl⟩

/-- The capture segment is ordered by owning ball: all six faces of one
ball precede every face of any later ball. -/
lemma captures_pairwise (m n : Nat) :
    ((List.range n).flatMap
        (fun i => (List.range 6).map (FrameEvent.captureFace i))).Pairwise
      (fun a b => eventKey m a ≤ eventKey m b) := by
  induction n with
  | zero => simp
  | succ n ih =>
    rw [List.range_succ, List.flatMap_append]
    refine List.pairwise_append.mpr ⟨ih, ?_, ?_⟩
    · refine List.pairwise_of_forall_mem_list ?_
      intro a ha b hb
      simp only [List.flatMap_cons, List.flatMap_nil, List.append_nil] at ha hb
      rcases List.mem_map.mp ha with ⟨f, _, rfl⟩
      rcases List.mem_map.mp hb with ⟨g, _, rfl⟩
      exact le_refl _
    · intro a ha b hb
      rcases mem_captures ha with ⟨i, hi, f, _, rfl⟩
      simp only [List.flatMap_cons, List.flatMap_nil, List.append_nil] at hb
      rcases List.mem_map.mp hb with ⟨g, _, rfl⟩
      show 3 + i ≤ 3 + n
      omega

/-- Any event in the three physics segments has key at most `2`. -/
lemma eventKey_le_two_of_mem_physics {n : Nat} {a : FrameEvent}
    (ha : a ∈ ((List.range n).map FrameEvent.resetFlag ++
          (List.range n).map FrameEvent.boundsTick) ++
        (allPairs n).map (fun ij => FrameEvent.pairTest ij.1 ij.2)) :
    eventKey n a ≤ 2 := by
  rcases List.mem_append.mp ha with h | h
  · rcases List.mem_append.mp h with h2 | h2
    · rcases List.mem_map.mp h2 with ⟨i, _, rfl⟩
      exact Nat.le_of_lt (by norm_num [eventKey])
    · rcases List.mem_map.mp h2 with ⟨i, _, rfl⟩
      exact Nat.le_of_lt (by norm_num [eventKey])
  · rcases List.mem_map.mp h with ⟨ij, _, rfl⟩
    exact le_refl _

/-- Claim C8: within a frame whose physics block runs, the frame events
occur in strict phase order — flag resets, then bounds resolution and
integration, then the pairwise loop, then the reflection captures (all
six faces of one sphere before any face of the next sphere), and the
present last — so all physics precedes every capture; and every sphere
gets its reset, bounds step, and six capture faces in the trace. -/
theorem c8_frame_phase_order (n : Nat) :
    (frameTrace n).Pairwise (fun a b => eventKey n a ≤ eventKey n b) ∧
    (frameTrace n).getLast? = some FrameEvent.present ∧
    (∀ i, i < n →
      FrameEvent.resetFlag i ∈ frameTrace n ∧
      FrameEvent.boundsTick i ∈ frameTrace n ∧
      ∀ f, f < 6 → FrameEvent.captureFace i f ∈ frameTrace n) := by
  refine ⟨?_, ?_, ?_⟩
  · rw [frameTrace]
    refine List.pairwise_append.mpr
      ⟨List.pairwise_append.mpr
        ⟨List.pairwise_append.mpr
          ⟨List.pairwise_append.mpr ⟨?_, ?_, ?_⟩, ?_, ?_⟩, ?_, ?_⟩, ?_, ?_⟩
    · refine List.pairwise_of_forall_mem_list ?_
      intro a ha b hb
      rcases List.mem_map.mp ha with ⟨i, _, rfl⟩
      rcases List.mem_map.mp hb with ⟨j, _, rfl⟩
      exact le_refl _
    · refine List.pairwise_of_forall_mem_list ?_
      intro a ha b hb
      rcases List.mem_map.mp ha with ⟨i, _, rfl⟩
      rcases List.mem_map.mp hb with ⟨j, _, rfl⟩
      exact le_refl _
    · intro a ha b hb
      rcases List.mem_map.mp ha with ⟨i, _, rfl⟩
      rcases List.mem_map.mp hb with ⟨j, _, rfl⟩
      exact Nat.le_of_lt (by norm_num [eventKey])
    · refine List.pairwise_of_forall_mem_list ?_
      intro a ha b hb
      rcases List.mem_map.mp ha with ⟨ij, _, rfl⟩
      rcases List.mem_map.mp hb with ⟨kl, _, rfl⟩
      exact le_refl _
    · intro a ha b hb
      rcases List.mem_map.mp hb with ⟨ij, _, rfl⟩
      rcases List.mem_append.mp ha with h | h
      · rcases List.mem_map.mp h with ⟨i, _, rfl⟩
        exact Nat.le_of_lt (by norm_num [eventKey])
      · rcases List.mem_map.mp h with ⟨i, _, rfl⟩
        exact Nat.le_of_lt (by norm_num [eventKey])
    · exact captures_pairwise n n
    · intro a ha b hb
      rcases mem_captures hb with ⟨i, _, f, _, rfl⟩
      have h2 := eventKey_le_two_of_mem_physics ha
      show eventKey n a ≤ 3 + i
      omega
    · exact List.pairwise_singleton _ _
    · intro a ha b hb
      simp only [List.mem_singleton] at hb
      subst hb
      show eventKey n a ≤ 3 + n
      rcases List.mem_append.mp ha with h | h
      · have h2 := eventKey_le_two_of_mem_physics h
        omega
      · rcases mem_captures h with ⟨i, hi, f, _, rfl⟩
        show 3 + i ≤ 3 + n
        omega
  · rw [frameTrace]
    rw [show ((List.range n).map FrameEvent.resetFlag ++
          (List.range n).map FrameEvent.boundsTick) ++
          (allPairs n).map (fun ij => FrameEvent.pairTest ij.1 ij.2) ++
          (List.range n).flatMap
            (fun i => (List.range 6).map (FrameEvent.captureFace i)) ++
          [FrameEvent.present] =
        (((List.range n).map FrameEvent.resetFlag ++
          (List.range n).map FrameEvent.boundsTick) ++
          (allPairs n).map (fun ij => FrameEvent.pairTest ij.1 ij.2) ++
          (List.range n).flatMap
            (fun i => (List.range 6).map (FrameEvent.captureFace i))) ++
          [FrameEvent.present] from rfl]
    rw [List.getLast?_concat]
  · intro i hi
    refine ⟨?_, ?_, fun f hf => ?_⟩
    · rw [frameTrace]
      simp only [List.mem_append]
      exact Or.inl (Or.inl (Or.inl (Or.inl
        (List.mem_map.mpr ⟨i, List.mem_range.mpr hi, rfl⟩))))
    · rw [frameTrace]
      simp only [List.mem_append]
      exact Or.inl (Or.inl (Or.inl (Or.inr
        (List.mem_map.mpr ⟨i, List.mem_range.mpr hi, rfl⟩))))
    · rw [frameTrace]
      simp only [List.mem_append]
      refine Or.inl (Or.inr (List.mem_flatMap.mpr
        ⟨i, List.mem_range.mpr hi,
         List.mem_map.mpr ⟨f, List.mem_range.mpr hf, rfl⟩⟩))

/-- Witness for C8: the completeness part at a concrete frame. -/
theorem c8_frame_phase_order_witness :
    (1 < 3) ∧ FrameEvent.captureFace 1 5 ∈ frameTrace 3 :=
  ⟨by decide, ((c8_frame_phase_order 3).2.2 1 (by decide)).2.2 5 (by decide)⟩

/-- Counterexample to C4 as stated: with two stationary, non-overlapping
spheres, neither of which bounces, the unordered pair `{0, 1}` is
subjected to the overlap/collision-course test twice — once as `(0, 1)`
and once as `(1, 0)` — because the guard only skips spheres that are
already flagged, and a failed test flags nobody. -/
theorem c4_unordered_pair_single_test_cex :
    ¬ (((testedPairs
          [⟨⟨0, 0, 0⟩, ⟨0, 0, 0⟩, 0, 0, 0, 1, false⟩,
            ⟨⟨5, 0, 0⟩, ⟨0, 0, 0⟩, 0, 0, 0, 1, false⟩]).filter
          (fun q => decide (q = ((0 : Nat), (1 : Nat)) ∨ q = (1, 0)))).length ≤ 1) := by
  have hno : ¬ collision_hit ⟨⟨0, 0, 0⟩, ⟨0, 0, 0⟩, 0, 0, 0, 1, false⟩
      ⟨⟨5, 0, 0⟩, ⟨0, 0, 0⟩, 0, 0, 0, 1, false⟩ := by
    norm_num [collision_hit, Vec3.dot, Vec3.sub]
  have hno' : ¬ collision_hit ⟨⟨5, 0, 0⟩, ⟨0, 0, 0⟩, 0, 0, 0, 1, false⟩
      ⟨⟨0, 0, 0⟩, ⟨0, 0, 0⟩, 0, 0, 0, 1, false⟩ := by
    norm_num [collision_hit, Vec3.dot, Vec3.sub]
  have hb1 : bounce_ball ⟨⟨0, 0, 0⟩, ⟨0, 0, 0⟩, 0, 0, 0, 1, false⟩
      ⟨⟨5, 0, 0⟩, ⟨0, 0, 0⟩, 0, 0, 0, 1, false⟩ =
      (⟨⟨0, 0, 0⟩, ⟨0, 0, 0⟩, 0, 0, 0, 1, false⟩,
       ⟨⟨5, 0, 0⟩, ⟨0, 0, 0⟩, 0, 0, 0, 1, false⟩, false) := by
    rw [bounce_ball, if_neg hno]
  have hb2 : bounce_ball ⟨⟨5, 0, 0⟩, ⟨0, 0, 0⟩, 0, 0, 0, 1, false⟩
      ⟨⟨0, 0, 0⟩, ⟨0, 0, 0⟩, 0, 0, 0, 1, false⟩ =
      (⟨⟨5, 0, 0⟩, ⟨0, 0, 0⟩, 0, 0, 0, 1, false⟩,
       ⟨⟨0, 0, 0⟩, ⟨0, 0, 0⟩, 0, 0, 0, 1, false⟩, false) := by
    rw [bounce_ball, if_neg hno']
  have hap : allPairs 2 = [(0, 0), (0, 1), (1, 0), (1, 1)] := by decide
  have htested : testedPairs
      [⟨⟨0, 0, 0⟩, ⟨0, 0, 0⟩, 0, 0, 0, 1, false⟩,
       ⟨⟨5, 0, 0⟩, ⟨0, 0, 0⟩, 0, 0, 0, 1, false⟩] = [(0, 1), (1, 0)] := by
    show (pairwiseRun
      ([⟨⟨0, 0, 0⟩, ⟨0, 0, 0⟩, 0, 0, 0, 1, false⟩,
        ⟨⟨5, 0, 0⟩, ⟨0, 0, 0⟩, 0, 0, 0, 1, false⟩], []) (allPairs 2)).2 = _
    rw [hap]
    simp only [pairwiseRun, List.foldl_cons, List.foldl_nil]
    rw [show pairStepT
        ([⟨⟨0, 0, 0⟩, ⟨0, 0, 0⟩, 0, 0, 0, 1, false⟩,
          ⟨⟨5, 0, 0⟩, ⟨0, 0, 0⟩, 0, 0, 0, 1, false⟩], []) (0, 0) =
        ([⟨⟨0, 0, 0⟩, ⟨0, 0, 0⟩, 0, 0, 0, 1, false⟩,
          ⟨⟨5, 0, 0⟩, ⟨0, 0, 0⟩, 0, 0, 0, 1, false⟩], []) from by simp [pairStepT]]
    rw [show pairStepT
        ([⟨⟨0, 0, 0⟩, ⟨0, 0, 0⟩, 0, 0, 0, 1, false⟩,
          ⟨⟨5, 0, 0⟩, ⟨0, 0, 0⟩, 0, 0, 0, 1, false⟩], []) (0, 1) =
        ([⟨⟨0, 0, 0⟩, ⟨0, 0, 0⟩, 0, 0, 0, 1, false⟩,
          ⟨⟨5, 0, 0⟩, ⟨0, 0, 0⟩, 0, 0, 0, 1, false⟩], [(0, 1)]) from by
      simp [pairStepT, hb1]]
    rw [show pairStepT
        ([⟨⟨0, 0, 0⟩, ⟨0, 0, 0⟩, 0, 0, 0, 1, false⟩,
          ⟨⟨5, 0, 0⟩, ⟨0, 0, 0⟩, 0, 0, 0, 1, false⟩], [(0, 1)]) (1, 0) =
        ([⟨⟨0, 0, 0⟩, ⟨0, 0, 0⟩, 0, 0, 0, 1, false⟩,
          ⟨⟨5, 0, 0⟩, ⟨0, 0, 0⟩, 0, 0, 0, 1, false⟩], [(0, 1), (1, 0)]) from by
      simp [pairStepT, hb2]]
    rw [show pairStepT
        ([⟨⟨0, 0, 0⟩, ⟨0, 0, 0⟩, 0, 0, 0, 1, false⟩,
          ⟨⟨5, 0, 0⟩, ⟨0, 0, 0⟩, 0, 0, 0, 1, false⟩], [(0, 1), (1, 0)]) (1, 1) =
        ([⟨⟨0, 0, 0⟩, ⟨0, 0, 0⟩, 0, 0, 0, 1, false⟩,
          ⟨⟨5, 0, 0⟩, ⟨0, 0, 0⟩, 0, 0, 0, 1, false⟩], [(0, 1), (1, 0)]) from by
      simp [pairStepT]]
  rw [htested]
  decide

/-- Claim C4 (amended): each *ordered* pair is tested at most once, so
an unordered pair is tested at most twice — at most once per
orientation, not at most once as the claim states — and a sphere
already flagged `bounced` is left unchanged by the remainder of the
pairwise phase. -/
theorem c4_pair_testing (l : List Ball) :
    (testedPairs l).Nodup ∧
    (∀ i j : Nat,
      ((testedPairs l).filter
        (fun q => decide (q = (i, j) ∨ q = (j, i)))).length ≤ 2) ∧
    (∀ (pairs : List (Nat × Nat)) (st : List Ball × List (Nat × Nat))
        (k : Nat) (bk : Ball),
      st.1[k]? = some bk → bk.bounced = true →
      (pairwiseRun st pairs).1[k]? = some bk) := by
  have hsub : (testedPairs l).Sublist (allPairs l.length) := by
    rcases pairwiseRun_tested_sublist (allPairs l.length) (l, []) with ⟨tl, htl, hs⟩
    have h1 : testedPairs l = tl := by
      rw [testedPairs, htl]; simp
    rw [h1]; exact hs
  refine ⟨(allPairs_nodup l.length).sublist hsub, fun i j => ?_,
    fun pairs st k bk hk hb => (pairwiseRun_frozen pairs st k bk hk hb).1⟩
  have h2 := (hsub.filter (fun q => decide (q = (i, j) ∨ q = (j, i)))).length_le
  refine le_trans h2 ?_
  have h3 : ((allPairs l.length).filter
      (fun q => decide (q = (i, j) ∨ q = (j, i)))).Nodup :=
    (allPairs_nodup l.length).filter _
  have h4 : ((allPairs l.length).filter
      (fun q => decide (q = (i, j) ∨ q = (j, i)))) ⊆ [(i, j), (j, i)] := by
    intro q hq
    rw [List.mem_filter] at hq
    have hq2 := hq.2
    simp only [decide_eq_true_eq] at hq2
    simpa using hq2
  exact (List.subperm_of_subset h3 h4).length_le

/-- Witness for the amended C4. -/
theorem c4_pair_testing_witness :
    (((testedPairs
        [⟨⟨0, 0, 0⟩, ⟨0, 0, 0⟩, 0, 0, 0, 1, false⟩,
          ⟨⟨5, 0, 0⟩, ⟨0, 0, 0⟩, 0, 0, 0, 1, false⟩]).filter
        (fun q => decide (q = ((0 : Nat), (1 : Nat)) ∨ q = (1, 0)))).length ≤ 2) ∧
    (pairwiseRun ([⟨⟨0, 0, 0⟩, ⟨2, 0, 0⟩, 0, 0, 0, 1, true⟩], []) [(0, 0)]).1[0]? =
      some ⟨⟨0, 0, 0⟩, ⟨2, 0, 0⟩, 0, 0, 0, 1, true⟩ :=
  ⟨(c4_pair_testing
      [⟨⟨0, 0, 0⟩, ⟨0, 0, 0⟩, 0, 0, 0, 1, false⟩,
       ⟨⟨5, 0, 0⟩, ⟨0, 0, 0⟩, 0, 0, 0, 1, false⟩]).2.1 0 1,
   (c4_pair_testing []).2.2 [(0, 0)]
      ([⟨⟨0, 0, 0⟩, ⟨2, 0, 0⟩, 0, 0, 0, 1, true⟩], []) 0
      ⟨⟨0, 0, 0⟩, ⟨2, 0, 0⟩, 0, 0, 0, 1, true⟩ rfl rfl⟩

/-- Claim C1: for a pair of distinct spheres tested in the pairwise
phase (both flags clear there), `bounce_ball` swaps the two velocity
vectors exactly and sets both `bounced` flags if and only if the
squared center distance is below the squared radius sum and the pair is
on a collision course (the source's sign convention:
`dot(other.position - position, velocity - other.velocity) > 0`);
otherwise neither velocity changes. -/
theorem c1_pair_collision_swap (a b : Ball)
    (ha : a.bounced = false) (hb : b.bounced = false) :
    (collision_hit a b →
      (bounce_ball a b).1.velocity = b.velocity ∧
      (bounce_ball a b).2.1.velocity = a.velocity ∧
      (bounce_ball a b).1.bounced = true ∧
      (bounce_ball a b).2.1.bounced = true ∧
      (bounce_ball a b).2.2 = true) ∧
    (¬ collision_hit a b →
      (bounce_ball a b).1.velocity = a.velocity ∧
      (bounce_ball a b).2.1.velocity = b.velocity ∧
      (bounce_ball a b).2.2 = false) ∧
    (((bounce_ball a b).1.bounced = true ∧ (bounce_ball a b).2.1.bounced = true) ↔
      collision_hit a b) := by
  by_cases h : collision_hit a b <;>
    simp [bounce_ball, h, ha, hb]

/-- Witness for C1: a concrete overlapping, closing pair. -/
theorem c1_pair_collision_swap_witness :
    (Ball.bounced ⟨⟨0, 0, 0⟩, ⟨1, 0, 0⟩, 0, 0, 0, 1/10, false⟩ = false) ∧
    (bounce_ball ⟨⟨0, 0, 0⟩, ⟨1, 0, 0⟩, 0, 0, 0, 1/10, false⟩
                 ⟨⟨1/10, 0, 0⟩, ⟨0, 0, 0⟩, 0, 0, 0, 1/10, false⟩).2.2 = true :=
  ⟨rfl,
   ((c1_pair_collision_swap
      ⟨⟨0, 0, 0⟩, ⟨1, 0, 0⟩, 0, 0, 0, 1/10, false⟩
      ⟨⟨1/10, 0, 0⟩, ⟨0, 0, 0⟩, 0, 0, 0, 1/10, false⟩ rfl rfl).1
      (by norm_num [collision_hit, Vec3.dot, Vec3.sub])).2.2.2.2⟩

/-- Claim C10: `bounce_ball` never modifies position, radius or color of
either ball, and when the test fails it leaves both balls entirely
unchanged and returns `false`. -/
theorem c10_bounce_ball_frame (a b : Ball) :
    ((bounce_ball a b).1.position = a.position ∧
     (bounce_ball a b).1.radius = a.radius ∧
     (bounce_ball a b).1.r = a.r ∧
     (bounce_ball a b).1.g = a.g ∧
     (bounce_ball a b).1.b = a.b) ∧
    ((bounce_ball a b).2.1.position = b.position ∧
     (bounce_ball a b).2.1.radius = b.radius ∧
     (bounce_ball a b).2.1.r = b.r ∧
     (bounce_ball a b).2.1.g = b.g ∧
     (bounce_ball a b).2.1.b = b.b) ∧
    (¬ collision_hit a b → bounce_ball a b = (a, b, false)) := by
  by_cases h : collision_hit a b <;>
    simp [bounce_ball, h]

/-- Witness for C10: a concrete non-colliding pair is returned unchanged. -/
theorem c10_bounce_ball_frame_witness :
    (¬ collision_hit ⟨⟨0, 0, 0⟩, ⟨0, 0, 0⟩, 0, 0, 0, 1, false⟩
                     ⟨⟨5, 0, 0⟩, ⟨0, 0, 0⟩, 0, 0, 0, 1, false⟩) ∧
    bounce_ball ⟨⟨0, 0, 0⟩, ⟨0, 0, 0⟩, 0, 0, 0, 1, false⟩
                ⟨⟨5, 0, 0⟩, ⟨0, 0, 0⟩, 0, 0, 0, 1, false⟩ =
      (⟨⟨0, 0, 0⟩, ⟨0, 0, 0⟩, 0, 0, 0, 1, false⟩,
       ⟨⟨5, 0, 0⟩, ⟨0, 0, 0⟩, 0, 0, 0, 1, false⟩, false) :=
  ⟨by norm_num [collision_hit, Vec3.dot, Vec3.sub],
   (c10_bounce_ball_frame
      ⟨⟨0, 0, 0⟩, ⟨0, 0, 0⟩, 0, 0, 0, 1, false⟩
      ⟨⟨5, 0, 0⟩, ⟨0, 0, 0⟩, 0, 0, 0, 1, false⟩).2.2
      (by norm_num [collision_hit, Vec3.dot, Vec3.sub])⟩

/-- Claim C7: `acquire` recycles from a non-empty free list (total
bundle count unchanged) and allocates fresh only when it is empty;
`release` returns the bundle to the free list without deallocating;
releasing then immediately acquiring returns the same bundle and
restores the pool state exactly, so the total count is unchanged. -/
theorem c7_pool_recycling (s : PoolState) (b : Nat) :
    (s.freeList ≠ [] →
      (acquire s).1 ∈ s.freeList ∧ totalBundles (acquire s).2 = totalBundles s) ∧
    (s.freeList = [] → totalBundles (acquire s).2 = totalBundles s + 1) ∧
    (totalBundles (release b s) = totalBundles s ∧
      (release b s).freeList = s.freeList ++ [b]) ∧
    acquire (release b s) = (b, s) := by
  refine ⟨fun h => ?_, fun h => ?_, ⟨rfl, rfl⟩, ?_⟩
  · rw [acquire, dif_neg h]
    exact ⟨List.getLast_mem h, rfl⟩
  · rw [acquire, dif_pos h]; rfl
  · have hne : (release b s).freeList ≠ [] := by simp [release]
    rw [acquire, dif_neg hne]
    simp [release, List.dropLast_concat, List.getLast_concat]

/-- Witness for C7: a concrete pool with one recycled bundle. -/
theorem c7_pool_recycling_witness :
    ((⟨[5], 3⟩ : PoolState).freeList ≠ []) ∧
    acquire (release 7 ⟨[5], 3⟩) = (7, (⟨[5], 3⟩ : PoolState)) :=
  ⟨by simp, (c7_pool_recycling ⟨[5], 3⟩ 7).2.2.2⟩

/-- The filter of one ball's capture renders by bundle owner. -/
lemma filter_update_owner (k n i : Nat) :
    (update_reflection_texture k n).filter (fun e => decide (e.owner = i)) =
      if k = i then update_reflection_texture k n else [] := by
  by_cases h : k = i <;> simp [update_reflection_texture, h]

/-- Within a whole capture pass, the renders into ball `i`'s bundle are
exactly ball `i`'s own six. -/
lemma capture_filter_owner (n i : Nat) : ∀ m : Nat,
    ((List.range m).flatMap (fun k => update_reflection_texture k n)).filter
        (fun e => decide (e.owner = i)) =
      if i < m then update_reflection_texture i n else [] := by
  intro m
  induction m with
  | zero => simp
  | succ m ih =>
    rw [List.range_succ, List.flatMap_append, List.filter_append, ih]
    by_cases him : i < m
    · have h1 : i < m + 1 := by omega
      have h2 : m ≠ i := by omega
      simp [him, h1, filter_update_owner, h2]
    · by_cases heq : i = m
      · subst heq
        simp [him, filter_update_owner]
      · have h1 : ¬ i < m + 1 := by omega
        have h2 : m ≠ i := fun h => heq h.symm
        simp [him, h1, filter_update_owner, h2]

/-- Claim C6: a reflection capture for one sphere issues exactly six
renders, one per principal axis direction, each into a distinct face of
that sphere's own bundle (so every face is rewritten exactly once per
capture), and each render excludes the capturing sphere from the drawn
scene; in the full capture pass, the renders into sphere `i`'s bundle
are exactly its own six. -/
theorem c6_capture_six_faces (i n : Nat) :
    (update_reflection_texture i n).length = 6 ∧
    (update_reflection_texture i n).map CaptureRender.face =
      [plus_x_index, minus_x_index, plus_y_index, minus_y_index,
       plus_z_index, minus_z_index] ∧
    ([plus_x_index, minus_x_index, plus_y_index, minus_y_index,
      plus_z_index, minus_z_index] : List Nat).Nodup ∧
    (update_reflection_texture i n).map CaptureRender.dir =
      [⟨1, 0, 0⟩, ⟨-1, 0, 0⟩, ⟨0, 1, 0⟩, ⟨0, -1, 0⟩, ⟨0, 0, 1⟩, ⟨0, 0, -1⟩] ∧
    (∀ e ∈ update_reflection_texture i n, e.owner = i ∧ i ∉ e.drawn) ∧
    (i < n →
      (capture_reflections n).filter (fun e => decide (e.owner = i)) =
        update_reflection_texture i n) := by
  refine ⟨rfl, rfl, by decide, rfl, ?_, ?_⟩
  · intro e he
    have hnd : i ∉ draw_list_balls n (some i) := by
      simp [draw_list_balls]
    simp only [update_reflection_texture, List.mem_cons, List.not_mem_nil,
      or_false] at he
    rcases he with h | h | h | h | h | h <;> subst h <;> exact ⟨rfl, hnd⟩
  · intro hin
    rw [capture_reflections, capture_filter_owner, if_pos hin]

/-- Witness for C6: a concrete capture in a three-ball scene. -/
theorem c6_capture_six_faces_witness :
    (1 < 3) ∧
    (capture_reflections 3).filter (fun e => decide (e.owner = 1)) =
      update_reflection_texture 1 3 :=
  ⟨by decide, (c6_capture_six_faces 1 3).2.2.2.2.2 (by decide)⟩

end Bouncy
